import Mathlib

/-!
Verification development for the operator-side core of the
plasma-rust-framework repository: the block-production pipeline
(`BlockManager::submit_next_block` in clients/src/plasma/block_manager.rs),
the block-range quantifier (ovm/src/quantifiers/block_range_quantifier.rs),
the transaction wire-tuple codec (core/src/data_structure/transaction.rs)
and the event-log filter (event-watcher/src/event_watcher.rs).

Rust functions are shallowly embedded as Lean functions; the stateful
block manager becomes explicit state passing over a `BlockManager` record.
Machine integers (u64 coordinates and block numbers) are modelled as `Nat`;
the block-number increment, which is the one counter that is repeatedly
bumped, carries an explicit wrap `% 2 ^ 64`.
-/

namespace Plasma

/-- Error taxonomy of the operations modelled here (spec section 7):
storage, merkelization, chain submission and ABI decode failures. -/
inductive Error where
  | StorageError
  | MerkelizingError
  | ChainSubmissionError
  | AbiDecodeError
deriving Repr, DecidableEq

/-- Modelled from the spec: `Range` of plasma-core is not under src; the spec
(section 3) defines it as a half-open interval `[start, end)` with u64
endpoints. The field `end_` renders Rust's `end`. -/
structure Range where
  start : Nat
  end_ : Nat
deriving Repr, DecidableEq

def Range.get_start (r : Range) : Nat := r.start

def Range.get_end (r : Range) : Nat := r.end_

/-- Modelled from the spec: `StateUpdate` (section 3) carries an owner
address, a range, an opaque state payload and an inclusion flag. -/
structure StateUpdate where
  owner : Nat
  range : Range
  payload : List Nat
  is_included : Bool
deriving Repr, DecidableEq

/-- Modelled from the spec: the aggregator treats queued transactions as
opaque enqueue payloads (section 6), so `NewTransactionEvent` is reduced to
its wire payload. -/
structure NewTransactionEvent where
  payload : List Nat
deriving Repr, DecidableEq

/-- Modelled from the spec: `PlasmaBlock.new(block_number, state_updates,
transactions)` is pure construction, no I/O (section 4.3). -/
structure PlasmaBlock where
  block_number : Nat
  state_updates : List StateUpdate
  transactions : List NewTransactionEvent
deriving Repr, DecidableEq

def PlasmaBlock.new (block_number : Nat) (state_updates : List StateUpdate)
    (transactions : List NewTransactionEvent) : PlasmaBlock :=
  ⟨block_number, state_updates, transactions⟩

def PlasmaBlock.get_block_number (b : PlasmaBlock) : Nat := b.block_number

/-- A range is well formed when it is non-empty, `start < end` (spec
section 3 invariant). -/
def wellFormedRange (r : Range) : Bool := r.start < r.end_

/-- Modelled from the spec: `merkelize` is a pure function of the block's
contents that fails only if a StateUpdate cannot be mapped to a well-formed
leaf (section 4.3). The root is modelled as the injective flattening of the
leaves; only its purity and determinism matter to the claims. -/
def PlasmaBlock.merkelize (b : PlasmaBlock) : Except Error (List Nat) :=
  if b.state_updates.all (fun u => wellFormedRange u.range) then
    .ok (b.state_updates.foldr
      (fun u acc => u.owner :: u.range.start :: u.range.end_ :: (u.payload ++ acc)) [])
  else
    .error .MerkelizingError

/-- Modelled from the spec: the BlockDb persisted layout (section 6): one
pending bucket per entity kind plus the committed blocks, all kept in an
in-memory model of the key-value store. -/
structure BlockDbState where
  pending_state_updates : List StateUpdate
  pending_txs : List NewTransactionEvent
  saved_blocks : List PlasmaBlock
deriving Repr, DecidableEq

def BlockDbState.get_pending_state_updates (db : BlockDbState) : List StateUpdate :=
  db.pending_state_updates

def BlockDbState.get_pending_txs (db : BlockDbState) : List NewTransactionEvent :=
  db.pending_txs

def BlockDbState.enqueue_state_update (db : BlockDbState) (u : StateUpdate) : BlockDbState :=
  { db with pending_state_updates := db.pending_state_updates ++ [u] }

def BlockDbState.enqueue_tx (db : BlockDbState) (t : NewTransactionEvent) : BlockDbState :=
  { db with pending_txs := db.pending_txs ++ [t] }

def BlockDbState.save_block (db : BlockDbState) (b : PlasmaBlock) : BlockDbState :=
  { db with saved_blocks := db.saved_blocks ++ [b] }

def BlockDbState.delete_all_queued_state_updates (db : BlockDbState) : BlockDbState :=
  { db with pending_state_updates := [] }

def BlockDbState.delete_all_queued_txs (db : BlockDbState) : BlockDbState :=
  { db with pending_txs := [] }

/-- State of `BlockManager` (block_manager.rs lines 15-20): the range db
holding the pending queues and saved blocks, and the current block number.
The two contract addresses play no role in the modelled behaviour. -/
structure BlockManager where
  db : BlockDbState
  current_block_number : Nat
deriving Repr, DecidableEq

/-- `BlockManager::new` (block_manager.rs lines 23-33): fresh store,
`current_block_number = 1`. -/
def BlockManager.new : BlockManager := ⟨⟨[], [], []⟩, 1⟩

def BlockManager.get_queued_state_updates (m : BlockManager) : List StateUpdate :=
  m.db.get_pending_state_updates

def BlockManager.enqueue_state_update (m : BlockManager) (u : StateUpdate) : BlockManager :=
  { m with db := m.db.enqueue_state_update u }

def BlockManager.enqueue_tx (m : BlockManager) (t : NewTransactionEvent) : BlockManager :=
  { m with db := m.db.enqueue_tx t }

def BlockManager.get_current_block_number (m : BlockManager) : Nat :=
  m.current_block_number

/-- `get_next_block_number` (block_manager.rs lines 93-95): u64 increment. -/
def BlockManager.get_next_block_number (m : BlockManager) : Nat :=
  (m.current_block_number + 1) % 2 ^ 64

/-- `save_next_block_number` (block_manager.rs lines 97-99): stores its
argument directly into `current_block_number`. -/
def BlockManager.save_next_block_number (m : BlockManager) (n : Nat) : BlockManager :=
  { m with current_block_number := n % 2 ^ 64 }

/-- The block built at line 61 of block_manager.rs:
`PlasmaBlock::new(self.current_block_number, state_updates, transactions)`
from the pending queues. -/
def BlockManager.next_block (m : BlockManager) : PlasmaBlock :=
  PlasmaBlock.new m.current_block_number
    m.db.get_pending_state_updates m.db.get_pending_txs

/-- Shallow embedding of `BlockManager::submit_next_block` (block_manager.rs
lines 55-82). The commitment-contract call is passed in as `chain`: its
outcome depends on the remote chain, not on local state; the code calls it
with `block.get_block_number()` and the merkelized root and propagates its
error with `?` before performing any local write. -/
def BlockManager.submit_next_block
    (chain : Nat → List Nat → Except Error Unit) (m : BlockManager) :
    Except Error Unit × BlockManager :=
  let block := m.next_block
  match block.merkelize with
  | .error e => (.error e, m)
  | .ok root =>
    match chain block.get_block_number root with
    | .error e => (.error e, m)
    | .ok _ =>
      let db := m.db.save_block block
      let db := db.delete_all_queued_state_updates
      let db := db.delete_all_queued_txs
      let m1 : BlockManager := { m with db := db }
      (.ok (), m1.save_next_block_number m1.get_next_block_number)

/-- Operations of the `BlockManager` public interface; the read-only
accessors are included as explicit no-write operations. -/
inductive BMOp where
  | enqueueStateUpdate (u : StateUpdate)
  | enqueueTx (t : NewTransactionEvent)
  | submitNextBlock (chain : Nat → List Nat → Except Error Unit)
  | saveNextBlockNumber (n : Nat)
  | getQueuedStateUpdates
  | getBlockRange (n : Nat)
  | getCurrentBlockNumber
  | getNextBlockNumber

/-- Effect of one public-interface operation on the manager state. -/
def BlockManager.step (m : BlockManager) : BMOp → BlockManager
  | .enqueueStateUpdate u => m.enqueue_state_update u
  | .enqueueTx t => m.enqueue_tx t
  | .submitNextBlock chain => (m.submit_next_block chain).2
  | .saveNextBlockNumber n => m.save_next_block_number n
  | .getQueuedStateUpdates => m
  | .getBlockRange _ => m
  | .getCurrentBlockNumber => m
  | .getNextBlockNumber => m

/-- Modelled from the spec: `PlasmaDataBlock` (section 3): owner address,
updated range, committed root and inclusion flag, with the accessors used by
block_range_quantifier.rs; `data` is the opaque leaf content it converts
into a StateUpdate payload. -/
structure PlasmaDataBlock where
  deposit_contract_address : Nat
  updated_range : Range
  root : List Nat
  is_included : Bool
  data : List Nat
deriving Repr, DecidableEq

def PlasmaDataBlock.get_deposit_contract_address (p : PlasmaDataBlock) : Nat :=
  p.deposit_contract_address

def PlasmaDataBlock.get_updated_range (p : PlasmaDataBlock) : Range :=
  p.updated_range

def PlasmaDataBlock.get_root (p : PlasmaDataBlock) : List Nat := p.root

def PlasmaDataBlock.get_is_included (p : PlasmaDataBlock) : Bool := p.is_included

/-- Modelled from the spec: conversion of a committed leaf back into the
StateUpdate it represents (the `.into()` at block_range_quantifier.rs
line 65). -/
def PlasmaDataBlock.toStateUpdate (p : PlasmaDataBlock) : StateUpdate :=
  ⟨p.deposit_contract_address, p.updated_range, p.data, p.is_included⟩

/-- Modelled from the spec: `RangeAtBlockRecord` (section 3) pairs a
`PlasmaDataBlock` with its stored (inclusion or exclusion) proof. -/
structure RangeAtBlockRecord where
  inclusion_proof : List Nat
  plasma_data_block : PlasmaDataBlock
deriving Repr, DecidableEq

/-- A stored interval entry of the range db, as returned by `get`: the key
interval `[start, end)` and the decoded record value. Decoding
(`RangeAtBlockRecord::from_abi(r.get_value()).unwrap()`) is modelled as the
identity, the entry holding the record directly. -/
structure RangeWithValue where
  start : Nat
  end_ : Nat
  value : RangeAtBlockRecord
deriving Repr, DecidableEq

def RangeWithValue.get_value (r : RangeWithValue) : RangeAtBlockRecord := r.value

/-- Modelled from the spec: intersection of a stored interval with the query
window, `Some` exactly when the two half-open intervals overlap. -/
def RangeWithValue.get_intersection (r : RangeWithValue) (s e : Nat) : Option Range :=
  if max r.start s < min r.end_ e then some ⟨max r.start s, min r.end_ e⟩ else none

/-- Modelled from the spec: the `range_at_block` layer of the Interval Store
(section 4.1): per block number, a bucket of interval-keyed records. -/
structure RangeDb where
  entries : Nat → List RangeWithValue

/-- Modelled from the spec: `get(start, end)` returns the stored entries
intersecting `[start, end)` (section 4.1); a pure read. -/
def RangeDb.get (db : RangeDb) (block_number s e : Nat) : List RangeWithValue :=
  (db.entries block_number).filter (fun r => decide (max r.start s < min r.end_ e))

/-- State-passing form of `RangeDb.get`, making explicit that the read
leaves the store untouched. -/
def RangeDb.getS (db : RangeDb) (block_number s e : Nat) :
    List RangeWithValue × RangeDb :=
  (db.get block_number s e, db)

/-- A leaf of the double-layer Merkle interval tree as rebuilt by
`verify_exclusion` (block_range_quantifier.rs lines 21-25). -/
structure DoubleLayerTreeLeaf where
  address : Nat
  end_ : Nat
  data : List Nat
deriving Repr, DecidableEq

/-- The 32 zero bytes of `H256::zero()` used as exclusion-leaf data. -/
def zeroHashBytes : List Nat := List.replicate 32 0

/-- Shallow embedding of `BlockRangeQuantifier::verify_exclusion`
(block_range_quantifier.rs lines 20-27). `DoubleLayerTree::verify` lives
outside src, so the tree verifier is passed in as `verify`. -/
def verify_exclusion (verify : DoubleLayerTreeLeaf → List Nat → List Nat → Bool)
    (plasma_data_block : PlasmaDataBlock) (inclusion_proof : List Nat) : Bool :=
  verify
    ⟨plasma_data_block.get_deposit_contract_address,
      plasma_data_block.get_updated_range.get_end, zeroHashBytes⟩
    inclusion_proof plasma_data_block.get_root

/-- Modelled from the spec: one item of a quantifier result (section 4.5);
only the StateUpdate variant is produced here. -/
inductive QuantifierResultItem where
  | StateUpdate (u : StateUpdate)
deriving Repr, DecidableEq

/-- Modelled from the spec: the quantifier output (section 4.5): candidate
StateUpdates plus the boolean fully-included flag. -/
structure QuantifierResult where
  results : List QuantifierResultItem
  fully_included : Bool
deriving Repr, DecidableEq

def QuantifierResult.new (results : List QuantifierResultItem)
    (fully_included : Bool) : QuantifierResult :=
  ⟨results, fully_included⟩

/-- One step of the record traversal of `get_all_quantified`
(block_range_quantifier.rs lines 48-61): an included data block is
collected; a not-included one is checked with `verify_exclusion`, and on
failure the closure writes false into its flag — its own by-value copy of
`full_range_included`, since the closure is `move` and bool is Copy, so
the flag component of this fold never reaches the function's result. -/
def quantifierStep (verify : DoubleLayerTreeLeaf → List Nat → List Nat → Bool)
    (st : List PlasmaDataBlock × Bool) (record : RangeAtBlockRecord) :
    List PlasmaDataBlock × Bool :=
  if record.plasma_data_block.get_is_included then
    (st.1 ++ [record.plasma_data_block], st.2)
  else if verify_exclusion verify record.plasma_data_block record.inclusion_proof then
    st
  else
    (st.1, false)

/-- Shallow embedding of `BlockRangeQuantifier::get_all_quantified`
(block_range_quantifier.rs lines 28-69), state-passing over the range db.
The two property inputs are already resolved to the block number and the
queried range; the u64 sums are modelled as unbounded naturals. The
`filter_map(move |record| ...)` closure at lines 51-60 captures the Copy
bool `full_range_included` by value, so its `full_range_included = false`
writes go to the closure's own copy and are discarded: the flag handed to
`QuantifierResult::new` at line 67 is the pre-traversal sum check, which
is what this embedding returns; the traversal's collected blocks
(`folded.1`) are unaffected by that capture. -/
def get_all_quantified (verify : DoubleLayerTreeLeaf → List Nat → List Nat → Bool)
    (db : RangeDb) (block_number : Nat) (range : Range) :
    QuantifierResult × RangeDb :=
  let resDb := db.getS block_number range.get_start range.get_end
  let result := resDb.1
  let sum := (result.filterMap
      (fun r => r.get_intersection range.get_start range.get_end)).foldl
    (fun acc r => acc + (r.get_end - r.get_start)) 0
  let full_range_included : Bool := sum == range.get_end - range.get_start
  let folded := (result.map RangeWithValue.get_value).foldl
    (quantifierStep verify) ([], full_range_included)
  (QuantifierResult.new
    (folded.1.map (fun p => QuantifierResultItem.StateUpdate p.toStateUpdate))
    full_range_included, resDb.2)

/-- Declarative covered length: every stored entry intersecting the query
contributes the length of its intersection with the query window. -/
def coveredLength (db : RangeDb) (block_number : Nat) (range : Range) : Nat :=
  ((db.get block_number range.get_start range.get_end).map
    (fun en => min en.end_ range.get_end - max en.start range.get_start)).sum

/-- Declarative exclusion check: every retrieved record that is not marked
included passes its exclusion-proof verification. -/
def exclusionsOk (verify : DoubleLayerTreeLeaf → List Nat → List Nat → Bool)
    (db : RangeDb) (block_number : Nat) (range : Range) : Bool :=
  (db.get block_number range.get_start range.get_end).all
    (fun en => en.value.plasma_data_block.get_is_included ||
      verify_exclusion verify en.value.plasma_data_block en.value.inclusion_proof)

/-- Covered length as the claim words it: only records whose data block is
marked included contribute their intersection length. Stated for comparison
with the code's behaviour, not taken from the source. -/
def specIncludedCoveredLength (db : RangeDb) (block_number : Nat) (range : Range) : Nat :=
  (((db.get block_number range.get_start range.get_end).filter
    (fun en => en.value.plasma_data_block.get_is_included)).map
    (fun en => min en.end_ range.get_end - max en.start range.get_start)).sum

/-- Modelled from the spec: the ethabi wire `Token` (section 6), restricted
to the variants the transaction tuple uses. -/
inductive Token where
  | address (a : Nat)
  | uint (n : Nat)
  | bytes (b : List Nat)
  | tuple (ts : List Token)
deriving Repr

def Token.to_address : Token → Option Nat
  | .address a => some a
  | _ => none

def Token.to_uint : Token → Option Nat
  | .uint n => some n
  | _ => none

def Token.to_bytes : Token → Option (List Nat)
  | .bytes b => some b
  | _ => none

def Token.to_tuple : Token → Option (List Token)
  | .tuple ts => some ts
  | _ => none

/-- Outcome of running a Rust decode function that, besides returning
`Ok`/`Err`, may panic (slice index out of bounds, `Option::unwrap` on
`None`). -/
inductive ROutcome (α : Type) where
  | ok (a : α)
  | err (e : Error)
  | panicked
deriving Repr, DecidableEq

/-- Modelled from the spec: `Range::to_tuple` produces the
`(rangeStart, rangeEnd)` pair (section 6). -/
def Range.to_tuple (r : Range) : List Token := [.uint r.start, .uint r.end_]

/-- Modelled from the spec: `Range::from_tuple` parses the
`(rangeStart, rangeEnd)` pair, failing on anything else. -/
def Range.from_tuple : List Token → Except Error Range
  | [.uint s, .uint e] => .ok ⟨s, e⟩
  | _ => .error .AbiDecodeError

/-- Modelled from the spec: `Metadata` is opaque wire metadata; its ABI
round-trip (`to_abi`/`from_abi`) is modelled as the identity on its byte
payload. -/
structure Metadata where
  bytes_ : List Nat
deriving Repr, DecidableEq

def Metadata.to_abi (m : Metadata) : List Nat := m.bytes_

def Metadata.from_abi (b : List Nat) : Except Error Metadata := .ok ⟨b⟩

/-- `TransactionParams` (transaction.rs lines 11-17). -/
structure TransactionParams where
  plasma_contract_address : Nat
  range : Range
  parameters : List Nat
deriving Repr, DecidableEq

/-- `TransactionParams::to_tuple` (transaction.rs lines 31-37). -/
def TransactionParams.to_tuple (t : TransactionParams) : List Token :=
  [.address t.plasma_contract_address, .tuple t.range.to_tuple, .bytes t.parameters]

/-- `TransactionParams::from_tuple` (transaction.rs lines 43-58). Rust
indexes `tuple[0]`, `tuple[1]`, `tuple[2]` unconditionally, panicking when
the slice is shorter; a type mismatch of a read token makes the `if let`
fall through to `Err(AbiDecode)`; a tuple-shaped range whose contents fail
`Range::from_tuple` hits `.ok().unwrap()` and panics. -/
def TransactionParams.from_tuple (tuple : List Token) : ROutcome TransactionParams :=
  match tuple[0]?, tuple[1]?, tuple[2]? with
  | some t0, some t1, some t2 =>
    match t0.to_address, t1.to_tuple, t2.to_bytes with
    | some plasma_contract_address, some range, some parameters =>
      match Range.from_tuple range with
      | .ok r => .ok ⟨plasma_contract_address, r, parameters⟩
      | .error _ => .panicked
    | _, _, _ => .err .AbiDecodeError
  | _, _, _ => .panicked

/-- `Transaction` (transaction.rs lines 81-87). -/
structure Transaction where
  plasma_contract_address : Nat
  range : Range
  parameters : List Nat
  signature : List Nat
  metadata : Metadata
deriving Repr, DecidableEq

/-- `Transaction::new` (transaction.rs lines 95-109). -/
def Transaction.new (plasma_contract_address : Nat) (range : Range)
    (parameters signature : List Nat) (metadata : Metadata) : Transaction :=
  ⟨plasma_contract_address, range, parameters, signature, metadata⟩

/-- `Transaction::to_tuple` (transaction.rs lines 177-185). -/
def Transaction.to_tuple (t : Transaction) : List Token :=
  [.address t.plasma_contract_address, .tuple t.range.to_tuple,
    .bytes t.parameters, .bytes t.signature, .bytes t.metadata.to_abi]

/-- `Transaction::from_tuple` (transaction.rs lines 190-219). Rust indexes
`tuple[0]` through `tuple[4]` unconditionally, panicking when the slice is
shorter; a type mismatch of a read token falls through to
`Err(AbiDecode)`; failures of `Range::from_tuple` or `Metadata::from_abi`
hit `.ok().unwrap()` and panic. -/
def Transaction.from_tuple (tuple : List Token) : ROutcome Transaction :=
  match tuple[0]?, tuple[1]?, tuple[2]?, tuple[3]?, tuple[4]? with
  | some t0, some t1, some t2, some t3, some t4 =>
    match t0.to_address, t1.to_tuple, t2.to_bytes, t3.to_bytes, t4.to_bytes with
    | some plasma_contract_address, some range, some parameters,
        some signature, some metadata =>
      match Range.from_tuple range with
      | .ok r =>
        match Metadata.from_abi metadata with
        | .ok md => .ok (Transaction.new plasma_contract_address r parameters signature md)
        | .error _ => .panicked
      | .error _ => .panicked
    | _, _, _, _, _ => .err .AbiDecodeError
  | _, _, _, _, _ => .panicked

/-- A decoded contract log as used by `filter_logs`: web3's
`Log::block_number` is an optional 64-bit block number; the rest of the log
is opaque payload here. -/
structure Log where
  block_number : Option Nat
  data : List Nat
deriving Repr, DecidableEq

/-- Modelled from the spec: the EventDb lookup `get_last_logged_block`,
keyed by the event signature. -/
structure EventDbM where
  last_logged_block : Nat → Option Nat

/-- Shallow embedding of `EventFetcher::filter_logs` (event_watcher.rs
lines 36-51): with a stored last-logged block, keep exactly the logs whose
block number is present and strictly greater; with none stored, return the
input unchanged. -/
def filter_logs (db : EventDbM) (event_signature : Nat) (logs : List Log) : List Log :=
  match db.last_logged_block event_signature with
  | some lastLogged =>
    logs.filter (fun log =>
      match log.block_number with
      | some n => decide (lastLogged < n)
      | none => false)
  | none => logs

section BlockManagerTheorems

/-- Folding `enqueue_state_update` over a list appends it to the pending
state-update queue and touches nothing else. -/
lemma foldl_enqueue_state_updates (us : List StateUpdate) (m : BlockManager) :
    us.foldl BlockManager.enqueue_state_update m =
      ⟨⟨m.db.pending_state_updates ++ us, m.db.pending_txs, m.db.saved_blocks⟩,
        m.current_block_number⟩ := by
  induction us generalizing m with
  | nil => simp
  | cons u us ih =>
    rw [List.foldl_cons, ih]
    simp [BlockManager.enqueue_state_update, BlockDbState.enqueue_state_update]

/-- Claim C1: if the commitment-contract submission inside `submit_next_block`
returns any non-success outcome, `submit_next_block` returns that error and
leaves the whole manager state — pending state-update queue, pending
transaction queue, persisted blocks and `current_block_number` — exactly as
it was, so a retry attempts the same block number with the same pending
contents. -/
theorem C1_failure_isolation (m : BlockManager)
    (chain : Nat → List Nat → Except Error Unit) (root : List Nat) (e : Error)
    (hm : m.next_block.merkelize = .ok root)
    (hc : chain m.next_block.get_block_number root = .error e) :
    m.submit_next_block chain = (.error e, m) := by
  unfold BlockManager.submit_next_block
  simp only [hm, hc]

def mC1 : BlockManager := ⟨⟨[⟨7, ⟨0, 5⟩, [1], true⟩], [], []⟩, 1⟩

theorem C1_failure_isolation_witness :
    BlockManager.submit_next_block (fun _ _ => Except.error Error.ChainSubmissionError) mC1
      = (Except.error Error.ChainSubmissionError, mC1) :=
  C1_failure_isolation mC1 (fun _ _ => Except.error Error.ChainSubmissionError)
    [7, 0, 5, 1] Error.ChainSubmissionError rfl rfl

def mC4 : BlockManager := ⟨⟨[⟨2, ⟨0, 10⟩, [], true⟩], [], []⟩, 5⟩

def chainOnly6 : Nat → List Nat → Except Error Unit := fun bn _ =>
  if bn = 6 then .ok () else .error .ChainSubmissionError

/-- Claim C4 counterexample: with `current_block_number = 5`, `submit_next_block`
constructs the block at number 5, not 6; a commitment contract that only
accepts block number `current_block_number + 1 = 6` rejects the submission,
so 6 is not the number submitted. -/
theorem C4_counterexample :
    mC4.next_block.get_block_number = 5 ∧
    mC4.get_current_block_number + 1 = 6 ∧
    (mC4.submit_next_block chainOnly6).1 = .error .ChainSubmissionError :=
  ⟨rfl, rfl, rfl⟩

/-- Claim C4 (amended): `submit_next_block` constructs and merkelizes the new
block with block number `current_block_number` — not
`current_block_number + 1` — and that unincremented number is the one it
submits to the commitment contract (a chain accepting it at
`current_block_number` makes the call succeed); only after success is
`current_block_number` advanced by one. -/
theorem C4_submits_current_block_number (m : BlockManager)
    (chain : Nat → List Nat → Except Error Unit) (root : List Nat)
    (hm : m.next_block.merkelize = .ok root)
    (hc : chain m.get_current_block_number root = .ok ())
    (hbound : m.current_block_number + 1 < 2 ^ 64) :
    m.next_block.get_block_number = m.get_current_block_number ∧
    (m.submit_next_block chain).1 = .ok () ∧
    (m.submit_next_block chain).2.get_current_block_number =
      m.get_current_block_number + 1 := by
  have hc' : chain m.next_block.get_block_number root = .ok () := hc
  refine ⟨rfl, ?_, ?_⟩
  · unfold BlockManager.submit_next_block
    simp only [hm, hc']
  · unfold BlockManager.submit_next_block
    simp only [hm, hc']
    simp only [BlockManager.save_next_block_number, BlockManager.get_next_block_number,
      BlockManager.get_current_block_number]
    omega

def chainOnly5 : Nat → List Nat → Except Error Unit := fun bn _ =>
  if bn = 5 then .ok () else .error .ChainSubmissionError

theorem C4_submits_current_block_number_witness :
    mC4.next_block.get_block_number = mC4.get_current_block_number ∧
    (mC4.submit_next_block chainOnly5).1 = .ok () ∧
    (mC4.submit_next_block chainOnly5).2.get_current_block_number =
      mC4.get_current_block_number + 1 :=
  C4_submits_current_block_number mC4 chainOnly5 [2, 0, 10] rfl rfl (by decide)

/-- Claim C7: enqueueing N state updates starting from empty pending queues and
then calling `submit_next_block` against an accepting chain succeeds,
persists a block holding exactly those N state updates, leaves both pending
queues empty, and increases `current_block_number` by exactly one. -/
theorem C7_pipeline (m0 : BlockManager) (us : List StateUpdate)
    (chain : Nat → List Nat → Except Error Unit)
    (hpending : m0.db.pending_state_updates = [])
    (htxs : m0.db.pending_txs = [])
    (hwf : us.all (fun u => wellFormedRange u.range) = true)
    (hchain : ∀ bn root, chain bn root = .ok ())
    (hbound : m0.current_block_number + 1 < 2 ^ 64) :
    (((us.foldl BlockManager.enqueue_state_update m0).submit_next_block chain).1
        = .ok ()) ∧
    ((us.foldl BlockManager.enqueue_state_update m0).submit_next_block chain).2.db.saved_blocks
        = m0.db.saved_blocks ++ [PlasmaBlock.new m0.current_block_number us []] ∧
    ((us.foldl BlockManager.enqueue_state_update m0).submit_next_block chain).2.db.pending_state_updates
        = [] ∧
    ((us.foldl BlockManager.enqueue_state_update m0).submit_next_block chain).2.db.pending_txs
        = [] ∧
    ((us.foldl BlockManager.enqueue_state_update m0).submit_next_block chain).2.current_block_number
        = m0.current_block_number + 1 := by
  rw [foldl_enqueue_state_updates, hpending, htxs]
  have hmerk : (BlockManager.next_block
      ⟨⟨[] ++ us, [], m0.db.saved_blocks⟩, m0.current_block_number⟩).merkelize
      = .ok (us.foldr
        (fun u acc => u.owner :: u.range.start :: u.range.end_ :: (u.payload ++ acc)) []) := by
    simp [BlockManager.next_block, PlasmaBlock.merkelize, PlasmaBlock.new,
      BlockDbState.get_pending_state_updates, BlockDbState.get_pending_txs, hwf]
  unfold BlockManager.submit_next_block
  simp only [hmerk, hchain]
  refine ⟨?_, ?_, ?_, ?_, ?_⟩
  · trivial
  · simp [BlockDbState.save_block, BlockDbState.delete_all_queued_state_updates,
      BlockDbState.delete_all_queued_txs, BlockManager.save_next_block_number,
      BlockManager.next_block, PlasmaBlock.new, BlockDbState.get_pending_state_updates,
      BlockDbState.get_pending_txs]
  · rfl
  · rfl
  · simp only [BlockDbState.save_block, BlockDbState.delete_all_queued_state_updates,
      BlockDbState.delete_all_queued_txs, BlockManager.save_next_block_number,
      BlockManager.get_next_block_number]
    omega

def usC7 : List StateUpdate := [⟨7, ⟨0, 5⟩, [], true⟩, ⟨8, ⟨5, 9⟩, [], false⟩]

theorem C7_pipeline_witness :
    (((usC7.foldl BlockManager.enqueue_state_update BlockManager.new).submit_next_block
        (fun _ _ => Except.ok ())).1 = .ok ()) ∧
    ((usC7.foldl BlockManager.enqueue_state_update BlockManager.new).submit_next_block
        (fun _ _ => Except.ok ())).2.db.saved_blocks
      = BlockManager.new.db.saved_blocks ++ [PlasmaBlock.new BlockManager.new.current_block_number usC7 []] ∧
    ((usC7.foldl BlockManager.enqueue_state_update BlockManager.new).submit_next_block
        (fun _ _ => Except.ok ())).2.db.pending_state_updates = [] ∧
    ((usC7.foldl BlockManager.enqueue_state_update BlockManager.new).submit_next_block
        (fun _ _ => Except.ok ())).2.db.pending_txs = [] ∧
    ((usC7.foldl BlockManager.enqueue_state_update BlockManager.new).submit_next_block
        (fun _ _ => Except.ok ())).2.current_block_number
      = BlockManager.new.current_block_number + 1 :=
  C7_pipeline BlockManager.new usC7 (fun _ _ => Except.ok ()) rfl rfl (by decide)
    (fun _ _ => rfl) (by decide)

/-- Claim C8 counterexample: the public method `save_next_block_number` sets the
counter directly, so the sequence [saveNextBlockNumber 0] on a fresh
manager drives `current_block_number` from 1 down to 0: it is not
monotonically increasing across every sequence of public-interface
operations. -/
theorem C8_counterexample :
    BlockManager.new.get_current_block_number = 1 ∧
    (BlockManager.new.step (BMOp.saveNextBlockNumber 0)).get_current_block_number = 0 ∧
    (0 : Nat) < 1 :=
  ⟨rfl, rfl, by decide⟩

/-- Claim C8 (amended): `current_block_number` starts at 1 on construction, and
across every public-interface operation other than a direct
`save_next_block_number` call (which stores its argument verbatim) it never
decreases: each such operation leaves it unchanged or — on a successful
`submit_next_block` — advances it by exactly one, so block numbers are
never reused or skipped under normal operation (stated below u64 wrap). -/
theorem C8_block_number_monotone (m : BlockManager) (op : BMOp)
    (hop : ∀ n, op ≠ BMOp.saveNextBlockNumber n)
    (hbound : m.current_block_number + 1 < 2 ^ 64) :
    BlockManager.new.get_current_block_number = 1 ∧
    ((m.step op).get_current_block_number = m.get_current_block_number ∨
      (m.step op).get_current_block_number = m.get_current_block_number + 1) := by
  refine ⟨rfl, ?_⟩
  cases op with
  | enqueueStateUpdate u => exact Or.inl rfl
  | enqueueTx t => exact Or.inl rfl
  | saveNextBlockNumber n => exact absurd rfl (hop n)
  | getQueuedStateUpdates => exact Or.inl rfl
  | getBlockRange n => exact Or.inl rfl
  | getCurrentBlockNumber => exact Or.inl rfl
  | getNextBlockNumber => exact Or.inl rfl
  | submitNextBlock chain =>
    have hstep : m.step (BMOp.submitNextBlock chain) = (m.submit_next_block chain).2 := rfl
    rw [hstep]
    cases hm : m.next_block.merkelize with
    | error e =>
      unfold BlockManager.submit_next_block
      simp only [hm]
      simp
    | ok root =>
      cases hc : chain m.next_block.get_block_number root with
      | error e =>
        unfold BlockManager.submit_next_block
        simp only [hm, hc]
        simp
      | ok u =>
        unfold BlockManager.submit_next_block
        simp only [hm, hc]
        right
        simp only [BlockManager.save_next_block_number, BlockManager.get_next_block_number,
          BlockManager.get_current_block_number]
        omega

theorem C8_block_number_monotone_witness :
    BlockManager.new.get_current_block_number = 1 ∧
    ((BlockManager.new.step (BMOp.enqueueStateUpdate ⟨7, ⟨0, 5⟩, [], true⟩)).get_current_block_number
        = BlockManager.new.get_current_block_number ∨
      (BlockManager.new.step (BMOp.enqueueStateUpdate ⟨7, ⟨0, 5⟩, [], true⟩)).get_current_block_number
        = BlockManager.new.get_current_block_number + 1) :=
  C8_block_number_monotone BlockManager.new (BMOp.enqueueStateUpdate ⟨7, ⟨0, 5⟩, [], true⟩)
    (fun n h => nomatch h) (by decide)

end BlockManagerTheorems

section QuantifierTheorems

/-- Folding an accumulating addition equals adding the mapped sum. -/
lemma foldl_add_len {α : Type} (f : α → Nat) (l : List α) (n : Nat) :
    l.foldl (fun acc r => acc + f r) n = n + (l.map f).sum := by
  induction l generalizing n with
  | nil => simp
  | cons x xs ih => simp [List.foldl_cons, ih, Nat.add_assoc]

/-- Every entry returned by `RangeDb.get` intersects the query window. -/
lemma get_mem_intersects (db : RangeDb) (bn s e : Nat) (en : RangeWithValue)
    (h : en ∈ db.get bn s e) : max en.start s < min en.end_ e := by
  unfold RangeDb.get at h
  rw [List.mem_filter] at h
  exact of_decide_eq_true h.2

/-- On a list of entries that all intersect the query window,
`get_intersection` never filters anything out and returns the clipped
interval of each entry. -/
lemma filterMap_intersection (s e : Nat) (l : List RangeWithValue)
    (h : ∀ en ∈ l, max en.start s < min en.end_ e) :
    l.filterMap (fun r => r.get_intersection s e) =
      l.map (fun en => Range.mk (max en.start s) (min en.end_ e)) := by
  induction l with
  | nil => rfl
  | cons x xs ih =>
    have hx := h x (List.mem_cons_self x xs)
    have hhead : x.get_intersection s e = some ⟨max x.start s, min x.end_ e⟩ := by
      simp [RangeWithValue.get_intersection, hx]
    simp only [List.filterMap_cons, hhead, List.map_cons]
    rw [ih (fun en hen => h en (List.mem_cons_of_mem x hen))]

/-- The collected component of the record traversal: exactly the
included data blocks, in order, appended to the accumulator. -/
lemma quantifier_fold_fst (verify : DoubleLayerTreeLeaf → List Nat → List Nat → Bool)
    (l : List RangeAtBlockRecord) (acc : List PlasmaDataBlock) (b : Bool) :
    (l.foldl (quantifierStep verify) (acc, b)).1 =
      acc ++ (l.filter (fun record => record.plasma_data_block.get_is_included)).map
        (fun r => r.plasma_data_block) := by
  induction l generalizing acc b with
  | nil => simp
  | cons r l ih =>
    rw [List.foldl_cons, List.filter_cons]
    cases hinc : r.plasma_data_block.get_is_included with
    | true =>
      have hstep : quantifierStep verify (acc, b) r = (acc ++ [r.plasma_data_block], b) := by
        simp [quantifierStep, hinc]
      rw [hstep, ih]
      simp [hinc]
    | false =>
      cases hv : verify_exclusion verify r.plasma_data_block r.inclusion_proof with
      | true =>
        have hstep : quantifierStep verify (acc, b) r = (acc, b) := by
          simp [quantifierStep, hinc, hv]
        rw [hstep, ih]
        simp [hinc, hv]
      | false =>
        have hstep : quantifierStep verify (acc, b) r = (acc, false) := by
          simp [quantifierStep, hinc, hv]
        rw [hstep, ih]
        simp [hinc, hv]

/-- The fully-included flag computed by `get_all_quantified` equals the
bare covered-length check: the length sum over all intersecting records
matches the queried length. The exclusion checks of the record traversal
never reach it, their flag writes being lost in the move closure's copy. -/
lemma get_all_quantified_fully_included
    (verify : DoubleLayerTreeLeaf → List Nat → List Nat → Bool)
    (db : RangeDb) (bn : Nat) (r : Range) :
    (get_all_quantified verify db bn r).1.fully_included =
      (coveredLength db bn r == r.get_end - r.get_start) := by
  have hint : ∀ en ∈ db.get bn r.get_start r.get_end,
      max en.start r.get_start < min en.end_ r.get_end :=
    fun en hen => get_mem_intersects db bn _ _ en hen
  unfold get_all_quantified RangeDb.getS QuantifierResult.new
  simp only [filterMap_intersection _ _ _ hint, foldl_add_len]
  unfold coveredLength
  simp [Function.comp_def, List.map_map, Range.get_start, Range.get_end]

/-- The result items computed by `get_all_quantified`: the state updates of
exactly the retrieved records marked included, in retrieval order. -/
lemma get_all_quantified_results
    (verify : DoubleLayerTreeLeaf → List Nat → List Nat → Bool)
    (db : RangeDb) (bn : Nat) (r : Range) :
    (get_all_quantified verify db bn r).1.results =
      ((db.get bn r.get_start r.get_end).filter
        (fun en => en.value.plasma_data_block.get_is_included)).map
        (fun en => QuantifierResultItem.StateUpdate en.value.plasma_data_block.toStateUpdate) := by
  unfold get_all_quantified RangeDb.getS QuantifierResult.new
  simp only [quantifier_fold_fst]
  rw [List.filter_map]
  simp [Function.comp_def, RangeWithValue.get_value, List.map_map]

def dbC2 : RangeDb :=
  ⟨fun bn => if bn = 3 then [⟨0, 10, ⟨[5], ⟨9, ⟨0, 10⟩, [1, 2], false, []⟩⟩⟩] else []⟩

def verifyFalseC2 : DoubleLayerTreeLeaf → List Nat → List Nat → Bool := fun _ _ _ => false

def enC2 : RangeWithValue := ⟨0, 10, ⟨[5], ⟨9, ⟨0, 10⟩, [1, 2], false, []⟩⟩⟩

/-- Claim C2, evaluated on the code at the failing input: a single record
covering the full queried range `[0,10)`, marked not included, whose stored
exclusion proof fails verification. The source writes
`full_range_included = false` inside the `filter_map(move |record| ...)`
closure, but that closure captures the Copy bool by value, so the write
lands in the closure's own copy and is discarded; the function returns the
covered-length check alone and reports fully-included = true where the
claim requires false. The last conjunct evaluates the traversal fold
itself, showing the discarded closure-copy flag was indeed false. -/
theorem C2_divergence_eval :
    enC2.value.plasma_data_block.get_is_included = false ∧
    verify_exclusion verifyFalseC2 enC2.value.plasma_data_block enC2.value.inclusion_proof
      = false ∧
    enC2 ∈ dbC2.get 3 (Range.get_start ⟨0, 10⟩) (Range.get_end ⟨0, 10⟩) ∧
    (get_all_quantified verifyFalseC2 dbC2 3 ⟨0, 10⟩).1.fully_included = true ∧
    (((dbC2.get 3 0 10).map RangeWithValue.get_value).foldl
        (quantifierStep verifyFalseC2) ([], true)).2 = false :=
  ⟨rfl, rfl, by decide, by decide, by decide⟩

def dbC3 : RangeDb :=
  ⟨fun bn => if bn = 1 then [⟨0, 10, ⟨[], ⟨9, ⟨0, 10⟩, [], false, []⟩⟩⟩] else []⟩

def verifyTrueC3 : DoubleLayerTreeLeaf → List Nat → List Nat → Bool := fun _ _ _ => true

def verifyFalseC3 : DoubleLayerTreeLeaf → List Nat → List Nat → Bool := fun _ _ _ => false

/-- Claim C3 counterexample: a single stored record covering the whole query
but marked not included. With a passing exclusion proof (first half), the
code includes its intersection length in the covered sum and reports
fully-included = true, while the claim's covered total — restricted to
records marked included — is 0, not the queried length 10, so the claimed
iff fails on its covered-total side. With a failing exclusion proof
(second half), the code still reports fully-included = true, so the iff
also fails on its every-exclusion-proof-verified side. -/
theorem C3_counterexample :
    (get_all_quantified verifyTrueC3 dbC3 1 ⟨0, 10⟩).1.fully_included = true ∧
    exclusionsOk verifyTrueC3 dbC3 1 ⟨0, 10⟩ = true ∧
    specIncludedCoveredLength dbC3 1 ⟨0, 10⟩ = 0 ∧
    Range.get_end ⟨0, 10⟩ - Range.get_start ⟨0, 10⟩ = 10 ∧
    (get_all_quantified verifyFalseC3 dbC3 1 ⟨0, 10⟩).1.fully_included = true ∧
    exclusionsOk verifyFalseC3 dbC3 1 ⟨0, 10⟩ = false :=
  ⟨by decide, by decide, by decide, rfl, by decide, by decide⟩

/-- Claim C3 (amended): in `get_all_quantified`, every record intersecting
the queried range `[s,e)` — regardless of its inclusion flag — contributes
its intersection length with `[s,e)` to the covered-length total; only
records marked included are returned as candidates; and fully-included is
true iff that total equals `e - s`, with the outcomes of the exclusion-proof
checks having no effect on the returned flag (their intended effect is lost
to the move closure's by-value capture; see claim C2). -/
theorem C3_coverage_characterization
    (verify : DoubleLayerTreeLeaf → List Nat → List Nat → Bool)
    (db : RangeDb) (bn : Nat) (r : Range) :
    (get_all_quantified verify db bn r).1.fully_included =
      (coveredLength db bn r == r.get_end - r.get_start) ∧
    (get_all_quantified verify db bn r).1.results =
      ((db.get bn r.get_start r.get_end).filter
        (fun en => en.value.plasma_data_block.get_is_included)).map
        (fun en => QuantifierResultItem.StateUpdate en.value.plasma_data_block.toStateUpdate) :=
  ⟨get_all_quantified_fully_included verify db bn r,
    get_all_quantified_results verify db bn r⟩

/-- Claim C9: `get_all_quantified` only reads: it returns the Interval Store
unchanged, and two calls on the same stored data with the same inputs
return the same QuantifierResult. -/
theorem C9_read_only (verify : DoubleLayerTreeLeaf → List Nat → List Nat → Bool)
    (db : RangeDb) (bn : Nat) (r : Range) :
    (get_all_quantified verify db bn r).2 = db ∧
    (∀ db2, db2 = db →
      (get_all_quantified verify db2 bn r).1 = (get_all_quantified verify db bn r).1) := by
  refine ⟨rfl, ?_⟩
  intro db2 h
  rw [h]

def dbC9 : RangeDb := ⟨fun _ => [⟨0, 5, ⟨[], ⟨1, ⟨0, 5⟩, [], true, []⟩⟩⟩]⟩

def verifyC9 : DoubleLayerTreeLeaf → List Nat → List Nat → Bool := fun _ _ _ => true

theorem C9_read_only_witness :
    (get_all_quantified verifyC9 dbC9 1 ⟨0, 5⟩).2 = dbC9 ∧
    (get_all_quantified verifyC9 dbC9 1 ⟨0, 5⟩).1
      = (get_all_quantified verifyC9 dbC9 1 ⟨0, 5⟩).1 :=
  ⟨(C9_read_only verifyC9 dbC9 1 ⟨0, 5⟩).1,
    (C9_read_only verifyC9 dbC9 1 ⟨0, 5⟩).2 dbC9 rfl⟩

end QuantifierTheorems

section CodecTheorems

/-- Claim C5: round-trip of the wire-tuple codec: decoding the encoding
(`from_tuple` applied to `to_tuple`) of any TransactionParams and any
Transaction returns the value unchanged. -/
theorem C5_roundtrip (t : TransactionParams) (tx : Transaction) :
    TransactionParams.from_tuple t.to_tuple = ROutcome.ok t ∧
    Transaction.from_tuple tx.to_tuple = ROutcome.ok tx := by
  constructor
  · cases t with
    | mk a r p => cases r with | mk s e => rfl
  · cases tx with
    | mk a r p s md =>
      cases r with
      | mk rs re => cases md with | mk mb => rfl

/-- Claim C6: evaluation of the decoders at the disputed inputs. A Transaction
tuple with only four fields (the example of the claim: the signature — or
equivalently the last — field missing) makes `from_tuple` panic via the
out-of-bounds index `tuple[4]`, not return an EncodingError; likewise a
two-field TransactionParams tuple panics at `tuple[2]`. A type mismatch in
a present field does return the decode error, and a tuple with an extra
sixth field is accepted by reading only the first five rather than
rejected. -/
theorem C6_decode_outcomes :
    Transaction.from_tuple [Token.address 0, Token.tuple [Token.uint 0, Token.uint 100],
      Token.bytes [1], Token.bytes [2]] = ROutcome.panicked ∧
    TransactionParams.from_tuple [Token.address 0,
      Token.tuple [Token.uint 0, Token.uint 100]] = ROutcome.panicked ∧
    Transaction.from_tuple [Token.uint 7, Token.tuple [Token.uint 0, Token.uint 100],
      Token.bytes [1], Token.bytes [2], Token.bytes []]
      = ROutcome.err Error.AbiDecodeError ∧
    Transaction.from_tuple [Token.address 0, Token.tuple [Token.uint 0, Token.uint 100],
      Token.bytes [1], Token.bytes [2], Token.bytes [3], Token.uint 9]
      = ROutcome.ok (Transaction.new 0 ⟨0, 100⟩ [1] [2] ⟨[3]⟩) :=
  ⟨rfl, rfl, rfl, rfl⟩

end CodecTheorems

section EventWatcherTheorems

/-- Claim C10: `filter_logs` keeps, when a last-logged block is stored for the
event's signature, exactly the logs of the input (in order) whose block
number is present and strictly greater than that stored value — logs with
no block number are dropped — and returns the input list unchanged when no
last-logged block is stored. -/
theorem C10_filter_logs (db : EventDbM) (sig : Nat) (logs : List Log) :
    (db.last_logged_block sig = none → filter_logs db sig logs = logs) ∧
    (∀ lb, db.last_logged_block sig = some lb →
      (filter_logs db sig logs).Sublist logs ∧
      ∀ l, l ∈ filter_logs db sig logs ↔
        (l ∈ logs ∧ ∃ n, l.block_number = some n ∧ lb < n)) := by
  constructor
  · intro h
    unfold filter_logs
    rw [h]
  · intro lb h
    unfold filter_logs
    rw [h]
    constructor
    · exact List.filter_sublist logs
    · intro l
      rw [List.mem_filter]
      constructor
      · rintro ⟨hl, hp⟩
        refine ⟨hl, ?_⟩
        cases hbn : l.block_number with
        | none => simp [hbn] at hp
        | some n =>
          simp only [hbn] at hp
          exact ⟨n, rfl, of_decide_eq_true hp⟩
      · rintro ⟨hl, n, hbn, hlt⟩
        refine ⟨hl, ?_⟩
        simp only [hbn]
        exact decide_eq_true hlt

def dbC10none : EventDbM := ⟨fun _ => none⟩

def dbC10some : EventDbM := ⟨fun _ => some 3⟩

def logsC10 : List Log := [⟨some 5, [1]⟩, ⟨some 2, [2]⟩, ⟨none, [3]⟩]

theorem C10_filter_logs_witness :
    filter_logs dbC10none 0 logsC10 = logsC10 ∧
    (filter_logs dbC10some 0 logsC10).Sublist logsC10 ∧
    (Log.mk (some 5) [1] ∈ filter_logs dbC10some 0 logsC10 ↔
      (Log.mk (some 5) [1] ∈ logsC10 ∧
        ∃ n, (Log.mk (some 5) [1]).block_number = some n ∧ 3 < n)) :=
  ⟨(C10_filter_logs dbC10none 0 logsC10).1 rfl,
    ((C10_filter_logs dbC10some 0 logsC10).2 3 rfl).1,
    ((C10_filter_logs dbC10some 0 logsC10).2 3 rfl).2 (Log.mk (some 5) [1])⟩

end EventWatcherTheorems

end Plasma
